import Mathlib

/-!
Shallow embedding of the core analysis engine of `app_complete.py`
(CSA drawing / CMTS analyzer): line classification, per-document
analysis with quality scoring (`analyze_pdf_content`), set-based
revision comparison (`compare_pdfs_ml`) and checklist generation
(`generate_engineering_checklist`).

Documents are modelled as lists of characters (the full text, with
embedded newline characters).  Python string operations used by the
source are embedded explicitly: `split('\n')`, `strip()`, whitespace
`split()`, substring membership (`in`), `startswith`, `isdigit`.
Whitespace is the ASCII whitespace set Python recognises; `isdigit`
is modelled as the decimal digits `'0'..'9'` (the source only ever
meets ASCII text).  The MD5 fingerprint test of `compare_pdfs_ml`
is modelled as string equality (the digest is injective for the
purposes of the comparison: equal strings hash equal, and distinct
strings are assumed not to collide).
-/

namespace CSA

/-- Character list of a string literal. -/
def strL (s : String) : List Char := s.data

/-- Python whitespace (`str.strip` / `str.split` with no argument):
space, tab, newline, carriage return, vertical tab, form feed. -/
def pyIsSpace (c : Char) : Bool :=
  c = ' ' || c = '\t' || c = '\n' || c = '\r' || c = Char.ofNat 11 || c = Char.ofNat 12

/-- Python `line.strip()`: remove leading and trailing whitespace. -/
def pyStrip (l : List Char) : List Char :=
  ((l.dropWhile pyIsSpace).reverse.dropWhile pyIsSpace).reverse

/-- Helper for `splitLines`, accumulating the current line reversed. -/
def splitLinesAux : List Char → List Char → List (List Char)
  | [], acc => [acc.reverse]
  | c :: rest, acc =>
    if c = '\n' then acc.reverse :: splitLinesAux rest []
    else splitLinesAux rest (c :: acc)

/-- Python `pdf_content.split('\n')`: always at least one element. -/
def splitLines (s : List Char) : List (List Char) :=
  splitLinesAux s []

/-- Helper for `pySplit`, accumulating the current token reversed. -/
def pySplitAux : List Char → List Char → List (List Char)
  | [], acc => if acc.isEmpty then [] else [acc.reverse]
  | c :: rest, acc =>
    if pyIsSpace c then
      if acc.isEmpty then pySplitAux rest []
      else acc.reverse :: pySplitAux rest []
    else pySplitAux rest (c :: acc)

/-- Python `line.split()`: whitespace-delimited tokens, no empties. -/
def pySplit (l : List Char) : List (List Char) :=
  pySplitAux l []

/-- Python `p in s` substring membership on character lists. -/
def isSubstring : List Char → List Char → Bool
  | p, [] => p.isEmpty
  | p, s@(_ :: t) => p.isPrefixOf s || isSubstring p t

/-- Line classifier, dimension rule (`app_complete.py` line 97):
`'MM' in line or 'THK' in line or 'X' in line`. -/
def isDimension (l : List Char) : Bool :=
  isSubstring (strL "MM") l || isSubstring (strL "THK") l || isSubstring (strL "X") l

/-- Line classifier, specification rule (line 101):
`any(word in line for word in ['GRADE', 'STEEL', 'CONCRETE', 'REINFORCEMENT'])`. -/
def isSpecification (l : List Char) : Bool :=
  isSubstring (strL "GRADE") l || isSubstring (strL "STEEL") l ||
    isSubstring (strL "CONCRETE") l || isSubstring (strL "REINFORCEMENT") l

/-- Python `s.startswith(tuple('123456789'))`: first character is `'1'..'9'`. -/
def startsWithDigit19 : List Char → Bool
  | [] => false
  | c :: _ => (strL "123456789").contains c

/-- Line classifier, note rule (line 105):
`line.strip().startswith(tuple('123456789')) or 'NOTE' in line`. -/
def isNote (l : List Char) : Bool :=
  startsWithDigit19 (pyStrip l) || isSubstring (strL "NOTE") l

/-- Missing-data rule (lines 109-110): `' d' in line or ' D' in line`
and then `not any(char.isdigit() for char in line.split()[-1])`.
The `[-1]` indexing raises `IndexError` on an empty token list in
Python; that error branch is `none` here. -/
def lineMissing (l : List Char) : Option Bool :=
  if isSubstring (strL " d") l || isSubstring (strL " D") l then
    match (pySplit l).getLast? with
    | none => none
    | some t => some (!t.any Char.isDigit)
  else some false

/-- One entry of the `missing_data` collection:
`{'issue': 'Missing dimension value', 'text': line.strip()}`. -/
structure MissingEntry where
  issue : List Char
  text : List Char
deriving DecidableEq

/-- The fixed issue text of every missing-data entry. -/
def missingIssue : List Char := strL "Missing dimension value"

/-- The `missing_data` list accumulated over the retained lines;
`none` if any line would raise on `line.split()[-1]`. -/
def missingList : List (List Char) → Option (List MissingEntry)
  | [] => some []
  | l :: rest =>
    match lineMissing l, missingList rest with
    | some b, some ms => some (if b then ⟨missingIssue, pyStrip l⟩ :: ms else ms)
    | _, _ => none

/-- The analysis record produced by `analyze_pdf_content`. -/
structure Analysis where
  total_lines : Nat
  dimensions : List (List Char)
  specifications : List (List Char)
  notes : List (List Char)
  missing_data : List MissingEntry
  quality_score : Nat
deriving DecidableEq

/-- Python line 92: `[l for l in pdf_content.split('\n') if l.strip()]`. -/
def keptLines (c : List Char) : List (List Char) :=
  (splitLines c).filter (fun l => !(pyStrip l).isEmpty)

/-- `analyze_pdf_content` (lines 79-129).  The collections are the
stripped texts of the retained lines matching each rule, in line
order; the quality score is base 50 plus the four bonuses, clamped
by `min(100, score)`.  Returns `none` exactly when the Python code
would raise (which the totality theorem shows cannot happen). -/
def analyze_pdf_content (c : List Char) : Option Analysis :=
  match missingList (keptLines c) with
  | none => none
  | some md =>
    let dims := ((keptLines c).filter isDimension).map pyStrip
    let specs := ((keptLines c).filter isSpecification).map pyStrip
    let notes := ((keptLines c).filter isNote).map pyStrip
    let score := 50 + (if dims.length > 10 then 15 else 0)
      + (if specs.length > 5 then 15 else 0)
      + (if notes.length > 3 then 10 else 0)
      + (if md.length = 0 then 10 else 0)
    some ⟨(keptLines c).length, dims, specs, notes, md, min 100 score⟩

/-- Placeholder value for the (provably unreachable) error case. -/
def defaultAnalysis : Analysis := ⟨0, [], [], [], [], 0⟩

/-- The analysis as a total function, justified by the totality
theorem `analyze_pdf_content c = some (analyzeA c)`. -/
def analyzeA (c : List Char) : Analysis :=
  (analyze_pdf_content c).getD defaultAnalysis

/-- `len(detect_colors_in_pdf(c)['bold_changes'])` (lines 69-74):
one entry per line of `c.split('\n')` containing a decimal digit. -/
def bold_changes_count (c : List Char) : Nat :=
  ((splitLines c).filter (fun l => l.any Char.isDigit)).length

/-- Severity tags used by change records. -/
inductive Severity
  | HIGH | MEDIUM | GOOD | INFO
deriving DecidableEq

/-- Change-record type tags used by `compare_pdfs_ml`. -/
inductive ChangeType
  | DIMENSION_ADDED | DIMENSION_REMOVED | MISSING_DATA_RESOLVED
  | MARKUP_DETECTED | FORMATTING_CHANGE
deriving DecidableEq

/-- One change record `{'type': ..., 'description': ..., 'severity': ...}`. -/
structure ChangeRecord where
  type : ChangeType
  description : List Char
  severity : Severity
deriving DecidableEq

/-- Decimal representation of a natural number, as Python `str(n)`. -/
def natRepr (n : Nat) : List Char := (Nat.repr n).data

/-- The DIMENSION_ADDED record for a dimension value `v` (lines 165-169). -/
def addedRec (v : List Char) : ChangeRecord :=
  ⟨ChangeType.DIMENSION_ADDED, strL "New dimension: " ++ v, Severity.HIGH⟩

/-- The DIMENSION_REMOVED record for a dimension value `v` (lines 172-176). -/
def removedRec (v : List Char) : ChangeRecord :=
  ⟨ChangeType.DIMENSION_REMOVED, strL "Removed dimension: " ++ v, Severity.MEDIUM⟩

/-- The MISSING_DATA_RESOLVED record for a delta (lines 183-187). -/
def resolvedRec (delta : Nat) : ChangeRecord :=
  ⟨ChangeType.MISSING_DATA_RESOLVED,
    strL "Resolved " ++ natRepr delta ++ strL " missing dimensions", Severity.GOOD⟩

/-- Lines 161-169: `for dim in after_dims - before_dims`, where the
dims collections are viewed as sets (modelled by `dedup`, so each
distinct value contributes once; the source iterates a Python set,
whose order is unspecified — first-occurrence order is fixed here). -/
def dimension_added_changes (ba aa : Analysis) : List ChangeRecord :=
  ((aa.dimensions.dedup).filter (fun d => decide (d ∉ ba.dimensions))).map addedRec

/-- Lines 171-176: `for dim in before_dims - after_dims`. -/
def dimension_removed_changes (ba aa : Analysis) : List ChangeRecord :=
  ((ba.dimensions.dedup).filter (fun d => decide (d ∉ aa.dimensions))).map removedRec

/-- Lines 179-187: one MISSING_DATA_RESOLVED record iff
`before_missing > after_missing`. -/
def missing_resolved_changes (ba aa : Analysis) : List ChangeRecord :=
  if aa.missing_data.length < ba.missing_data.length then
    [resolvedRec (ba.missing_data.length - aa.missing_data.length)]
  else []

/-- Lines 190-195: `if 'Bold' in after_content and 'Bold' not in before_content`. -/
def markup_changes (b a : List Char) : List ChangeRecord :=
  if isSubstring (strL "Bold") a && !isSubstring (strL "Bold") b then
    [⟨ChangeType.MARKUP_DETECTED,
      strL "Designer markup: \"Bold\" annotation found", Severity.INFO⟩]
  else []

/-- Lines 198-203: `if len(after_colors['bold_changes']) > len(before_colors['bold_changes'])`. -/
def formatting_changes (b a : List Char) : List ChangeRecord :=
  if bold_changes_count b < bold_changes_count a then
    [⟨ChangeType.FORMATTING_CHANGE,
      strL "Bold formatting applied to dimensions", Severity.INFO⟩]
  else []

/-- The full change list of a non-identical comparison, in source
order: added, removed, missing-data, markup, formatting. -/
def changesFor (b a : List Char) : List ChangeRecord :=
  dimension_added_changes (analyzeA b) (analyzeA a)
    ++ dimension_removed_changes (analyzeA b) (analyzeA a)
    ++ missing_resolved_changes (analyzeA b) (analyzeA a)
    ++ markup_changes b a
    ++ formatting_changes b a

/-- The comparison result: the identical-files variant (lines 143-148)
or the full variant (lines 205-212). -/
inductive ComparisonResult where
  | identical (message recommendation : List Char) (changes : List ChangeRecord)
  | full (before_analysis after_analysis : Analysis) (changes : List ChangeRecord)
      (total_changes : Nat) (quality_improvement : Int)
deriving DecidableEq

/-- The `changes` field of either variant. -/
def ComparisonResult.changes : ComparisonResult → List ChangeRecord
  | .identical _ _ cs => cs
  | .full _ _ cs _ _ => cs

/-- The `total_changes` field; the identical variant carries none
(callers read it with `.get('total_changes', 0)`). -/
def ComparisonResult.total_changes : ComparisonResult → Nat
  | .identical _ _ _ => 0
  | .full _ _ _ tc _ => tc

/-- The `quality_improvement` field; the identical variant carries
none (callers read it with `.get('quality_improvement', 0)`). -/
def ComparisonResult.quality_improvement : ComparisonResult → Int
  | .identical _ _ _ => 0
  | .full _ _ _ _ qi => qi

/-- The `after_analysis` field; `.get('after_analysis', {})` on the
identical variant yields the all-empty defaults. -/
def ComparisonResult.after_analysis : ComparisonResult → Analysis
  | .identical _ _ _ => defaultAnalysis
  | .full _ aa _ _ _ => aa

/-- Fixed message of the identical-files variant (line 145). -/
def identicalMessage : List Char := strL "⚠️ IDENTICAL FILES DETECTED"

/-- Fixed recommendation of the identical-files variant (line 146). -/
def identicalRecommendation : List Char :=
  strL "BEFORE file should be ENGINEER COMMENTED version. AFTER file should be DESIGNER UPDATED version."

/-- `compare_pdfs_ml` (lines 132-212).  The MD5-equality guard is
modelled as content equality. -/
def compare_pdfs_ml (before_content after_content : List Char) : ComparisonResult :=
  if before_content = after_content then
    ComparisonResult.identical identicalMessage identicalRecommendation []
  else
    ComparisonResult.full (analyzeA before_content) (analyzeA after_content)
      (changesFor before_content after_content)
      (changesFor before_content after_content).length
      (((analyzeA after_content).quality_score : Int)
        - ((analyzeA before_content).quality_score : Int))

/-- Checklist item status tags. -/
inductive Status
  | PASS | FAIL | WARNING
deriving DecidableEq

/-- One checklist item `{'status': ..., 'item': ..., 'details': ...}`. -/
structure ChecklistItem where
  status : Status
  item : List Char
  details : List Char
deriving DecidableEq

/-- The five checklist categories (lines 221-227). -/
structure Checklist where
  critical_items : List ChecklistItem
  dimensions : List ChecklistItem
  specifications : List ChecklistItem
  annotations : List ChecklistItem
  completeness : List ChecklistItem
deriving DecidableEq

/-- `generate_engineering_checklist` (lines 217-301).  Reads the
after-analysis and `total_changes` with `.get` defaults, so the
identical variant behaves as all-empty collections and score 0. -/
def generate_engineering_checklist (r : ComparisonResult) : Checklist :=
  let after := r.after_analysis
  let tc := r.total_changes
  let critical : List ChecklistItem :=
    if !after.missing_data.isEmpty then
      after.missing_data.map (fun m =>
        ⟨Status.FAIL, strL "Missing Dimension Value", m.text⟩)
    else
      [⟨Status.PASS, strL "All Dimensions Specified",
        strL "No missing dimension values detected"⟩]
  let dimItems : List ChecklistItem :=
    if after.dimensions.length > 10 then
      [⟨Status.PASS, strL "Adequate Dimensions",
        natRepr after.dimensions.length ++ strL " dimensions found"⟩]
    else
      [⟨Status.WARNING, strL "Limited Dimensions",
        strL "Only " ++ natRepr after.dimensions.length ++ strL " dimensions found"⟩]
  let specItems : List ChecklistItem :=
    if after.specifications.length > 5 then
      [⟨Status.PASS, strL "Material Specifications",
        natRepr after.specifications.length ++ strL " specifications provided"⟩]
    else []
  let annotationItems : List ChecklistItem :=
    if tc > 0 then
      [⟨Status.PASS, strL "Designer Updates Detected",
        natRepr tc ++ strL " changes found"⟩]
    else
      [⟨Status.FAIL, strL "No Updates Detected",
        strL "Files appear identical or no changes made"⟩]
  let completenessItems : List ChecklistItem :=
    if after.quality_score ≥ 80 then
      [⟨Status.PASS, strL "Drawing Completeness",
        strL "Quality Score: " ++ natRepr after.quality_score ++ strL "%"⟩]
    else
      [⟨Status.WARNING, strL "Drawing Needs Improvement",
        strL "Quality Score: " ++ natRepr after.quality_score ++ strL "%"⟩]
  ⟨critical, dimItems, specItems, annotationItems, completenessItems⟩

/-! ### Totality of the analyzer -/

theorem pySplitAux_eq_nil {l acc : List Char} (h : pySplitAux l acc = []) :
    acc = [] ∧ ∀ c ∈ l, pyIsSpace c = true := by
  induction l generalizing acc with
  | nil =>
    refine ⟨?_, by simp⟩
    by_cases ha : acc.isEmpty
    · exact List.isEmpty_iff.mp ha
    · simp [pySplitAux, ha] at h
  | cons c rest ih =>
    by_cases hc : pyIsSpace c
    · by_cases ha : acc.isEmpty
      · have hr := @ih [] (by simpa [pySplitAux, hc, ha] using h)
        refine ⟨List.isEmpty_iff.mp ha, ?_⟩
        intro x hx
        rcases List.mem_cons.mp hx with hx | hx
        · exact hx ▸ hc
        · exact hr.2 x hx
      · simp [pySplitAux, hc, ha] at h
    · have hr := @ih (c :: acc) (by simpa [pySplitAux, hc] using h)
      exact absurd hr.1 (by simp)

theorem pyStrip_eq_nil {l : List Char} (h : ∀ c ∈ l, pyIsSpace c = true) :
    pyStrip l = [] := by
  have h1 : l.dropWhile pyIsSpace = [] := List.dropWhile_eq_nil_iff.mpr h
  simp [pyStrip, h1]

theorem pySplit_ne_nil {l : List Char} (h : pyStrip l ≠ []) : pySplit l ≠ [] := by
  intro hs
  exact h (pyStrip_eq_nil (pySplitAux_eq_nil hs).2)

theorem lineMissing_isSome {l : List Char} (h : pyStrip l ≠ []) :
    (lineMissing l).isSome := by
  unfold lineMissing
  split
  · cases hg : (pySplit l).getLast? with
    | none => exact absurd (List.getLast?_eq_none_iff.mp hg) (pySplit_ne_nil h)
    | some t => simp [hg]
  · simp

theorem missingList_isSome {ls : List (List Char)} (h : ∀ l ∈ ls, pyStrip l ≠ []) :
    ∃ ms, missingList ls = some ms := by
  induction ls with
  | nil => exact ⟨[], rfl⟩
  | cons l rest ih =>
    obtain ⟨ms, hms⟩ := ih (fun x hx => h x (List.mem_cons_of_mem _ hx))
    obtain ⟨b, hb⟩ := Option.isSome_iff_exists.mp
      (lineMissing_isSome (h l (List.mem_cons_self _ _)))
    exact ⟨if b then ⟨missingIssue, pyStrip l⟩ :: ms else ms,
      by simp [missingList, hb, hms]⟩

theorem keptLines_strip_ne_nil {c : List Char} :
    ∀ l ∈ keptLines c, pyStrip l ≠ [] := by
  intro l hl h
  have h2 := (List.mem_filter.mp hl).2
  rw [h] at h2
  simp at h2

theorem analyze_eq_some (c : List Char) :
    analyze_pdf_content c = some (analyzeA c) := by
  obtain ⟨ms, hms⟩ := missingList_isSome (keptLines_strip_ne_nil (c := c))
  simp [analyzeA, analyze_pdf_content, hms]

theorem analyzeA_quality (c : List Char) :
    (analyzeA c).quality_score = min 100 (50
      + (if (analyzeA c).dimensions.length > 10 then 15 else 0)
      + (if (analyzeA c).specifications.length > 5 then 15 else 0)
      + (if (analyzeA c).notes.length > 3 then 10 else 0)
      + (if (analyzeA c).missing_data.length = 0 then 10 else 0)) := by
  obtain ⟨ms, hms⟩ := missingList_isSome (keptLines_strip_ne_nil (c := c))
  simp [analyzeA, analyze_pdf_content, hms]

/-! ### Substring characterization -/

theorem isPrefixOf_iff {p s : List Char} : p.isPrefixOf s = true ↔ ∃ t, s = p ++ t := by
  rw [List.isPrefixOf_iff_prefix]
  exact ⟨fun ⟨t, ht⟩ => ⟨t, ht.symm⟩, fun ⟨t, ht⟩ => ⟨t, ht.symm⟩⟩

theorem isSubstring_iff {p s : List Char} :
    isSubstring p s = true ↔ ∃ u v, s = u ++ p ++ v := by
  induction s with
  | nil =>
    simp only [isSubstring, List.isEmpty_iff]
    constructor
    · rintro rfl; exact ⟨[], [], rfl⟩
    · rintro ⟨u, v, huv⟩
      rcases List.append_eq_nil.mp huv.symm with ⟨h1, h2⟩
      exact (List.append_eq_nil.mp h1).2
  | cons c t ih =>
    simp only [isSubstring, Bool.or_eq_true, ih]
    constructor
    · rintro (hp | ⟨u, v, rfl⟩)
      · obtain ⟨w, hw⟩ := isPrefixOf_iff.mp hp
        exact ⟨[], w, by simpa using hw⟩
      · exact ⟨c :: u, v, rfl⟩
    · rintro ⟨u, v, huv⟩
      cases u with
      | nil => exact Or.inl (isPrefixOf_iff.mpr ⟨v, by simpa using huv⟩)
      | cons x u' =>
        rw [List.cons_append, List.cons_append, List.cons.injEq] at huv
        exact Or.inr ⟨u', v, huv.2⟩

/-! ### Claim theorems: analyzer -/

/-- C1: for every input document, the quality score equals exactly
`min(100, 50 + 15·[dims>10] + 15·[specs>5] + 10·[notes>3] + 10·[missing=0])`,
and this value lies in [0,100] (the lower bound is by the `Nat` type). -/
theorem quality_score_formula (c : List Char) :
    (analyzeA c).quality_score = min 100 (50
      + (if (analyzeA c).dimensions.length > 10 then 15 else 0)
      + (if (analyzeA c).specifications.length > 5 then 15 else 0)
      + (if (analyzeA c).notes.length > 3 then 10 else 0)
      + (if (analyzeA c).missing_data.length = 0 then 10 else 0))
    ∧ (analyzeA c).quality_score ≤ 100 := by
  refine ⟨analyzeA_quality c, ?_⟩
  rw [analyzeA_quality c]
  exact Nat.min_le_left _ _

/-- C9: no scoring rule subtracts, so the score is always at least the
base 50; the reachable range is [50,100]. -/
theorem quality_score_base_bound (c : List Char) :
    50 ≤ (analyzeA c).quality_score ∧ (analyzeA c).quality_score ≤ 100 := by
  rw [analyzeA_quality c]
  refine ⟨Nat.le_min.mpr ⟨by norm_num, by split_ifs <;> omega⟩, Nat.min_le_left _ _⟩

/-- C8: the analyzer is total — the `line.split()[-1]` access in the
missing-data rule never fails because whitespace-only lines are
filtered out first, so the error branch (`none`) is unreachable. -/
theorem analyzer_total (c : List Char) :
    analyze_pdf_content c = some (analyzeA c) :=
  analyze_eq_some c

/-- C2: comparing any document with itself returns the identical-files
variant with the fixed message/recommendation pair and empty changes;
the variant carries no analysis of the documents. -/
theorem compare_self_identical (X : List Char) :
    compare_pdfs_ml X X
      = ComparisonResult.identical identicalMessage identicalRecommendation [] := by
  simp [compare_pdfs_ml]

/-- C6 counterexample: the dimension rule matched against the line
`"x"` — the rule does not fire on a lowercase `x`, contradicting the
claim that either case of the letter X triggers it. -/
theorem dimension_rule_lowercase_counterexample :
    ¬ (isDimension (strL "x") = true ↔
        (isSubstring (strL "MM") (strL "x") = true ∨
         isSubstring (strL "THK") (strL "x") = true ∨
         isSubstring (strL "X") (strL "x") = true ∨
         isSubstring (strL "x") (strL "x") = true)) := by
  decide

/-- C6 amended: a line is tagged as a dimension exactly when it
contains `"MM"`, `"THK"`, or the uppercase letter `"X"` as a
substring; lowercase `"x"` does not trigger the rule. -/
theorem dimension_rule_uppercase_only (l : List Char) :
    isDimension l = true ↔
      ((∃ u v, l = u ++ strL "MM" ++ v) ∨ (∃ u v, l = u ++ strL "THK" ++ v) ∨
       (∃ u v, l = u ++ strL "X" ++ v)) := by
  simp only [isDimension, Bool.or_eq_true, isSubstring_iff]
  exact or_assoc

/-! ### Structure of the change list -/

theorem type_of_mem_added {ba aa : Analysis} {x : ChangeRecord}
    (h : x ∈ dimension_added_changes ba aa) : x.type = ChangeType.DIMENSION_ADDED := by
  obtain ⟨d, _, rfl⟩ := List.mem_map.mp h
  rfl

theorem type_of_mem_removed {ba aa : Analysis} {x : ChangeRecord}
    (h : x ∈ dimension_removed_changes ba aa) : x.type = ChangeType.DIMENSION_REMOVED := by
  obtain ⟨d, _, rfl⟩ := List.mem_map.mp h
  rfl

theorem type_of_mem_missing {ba aa : Analysis} {x : ChangeRecord}
    (h : x ∈ missing_resolved_changes ba aa) :
    x.type = ChangeType.MISSING_DATA_RESOLVED := by
  unfold missing_resolved_changes at h
  split at h
  · rw [List.mem_singleton.mp h]; rfl
  · simp at h

theorem type_of_mem_markup {b a : List Char} {x : ChangeRecord}
    (h : x ∈ markup_changes b a) : x.type = ChangeType.MARKUP_DETECTED := by
  unfold markup_changes at h
  split at h
  · rw [List.mem_singleton.mp h]
  · simp at h

theorem type_of_mem_formatting {b a : List Char} {x : ChangeRecord}
    (h : x ∈ formatting_changes b a) : x.type = ChangeType.FORMATTING_CHANGE := by
  unfold formatting_changes at h
  split at h
  · rw [List.mem_singleton.mp h]
  · simp at h

theorem addedRec_injective : Function.Injective addedRec := by
  intro d1 d2 h
  exact List.append_cancel_left (congrArg ChangeRecord.description h)

theorem removedRec_injective : Function.Injective removedRec := by
  intro d1 d2 h
  exact List.append_cancel_left (congrArg ChangeRecord.description h)

theorem addedRec_mem_iff {ba aa : Analysis} {v : List Char} :
    addedRec v ∈ dimension_added_changes ba aa ↔
      (v ∈ aa.dimensions ∧ v ∉ ba.dimensions) := by
  unfold dimension_added_changes
  rw [List.mem_map]
  constructor
  · rintro ⟨d, hd, he⟩
    rcases addedRec_injective he
    have hm := List.mem_filter.mp hd
    refine ⟨List.mem_dedup.mp hm.1, ?_⟩
    simpa using hm.2
  · rintro ⟨h1, h2⟩
    refine ⟨v, ?_, rfl⟩
    rw [List.mem_filter]
    exact ⟨List.mem_dedup.mpr h1, by simpa using h2⟩

theorem removedRec_mem_iff {ba aa : Analysis} {v : List Char} :
    removedRec v ∈ dimension_removed_changes ba aa ↔
      (v ∈ ba.dimensions ∧ v ∉ aa.dimensions) := by
  unfold dimension_removed_changes
  rw [List.mem_map]
  constructor
  · rintro ⟨d, hd, he⟩
    rcases removedRec_injective he
    have hm := List.mem_filter.mp hd
    refine ⟨List.mem_dedup.mp hm.1, ?_⟩
    simpa using hm.2
  · rintro ⟨h1, h2⟩
    refine ⟨v, ?_, rfl⟩
    rw [List.mem_filter]
    exact ⟨List.mem_dedup.mpr h1, by simpa using h2⟩

theorem addedRec_mem_changesFor {b a v : List Char} :
    addedRec v ∈ changesFor b a ↔
      (v ∈ (analyzeA a).dimensions ∧ v ∉ (analyzeA b).dimensions) := by
  unfold changesFor
  simp only [List.mem_append]
  constructor
  · rintro ((((h | h) | h) | h) | h)
    · exact addedRec_mem_iff.mp h
    · have ht := type_of_mem_removed h
      simp [addedRec] at ht
    · have ht := type_of_mem_missing h
      simp [addedRec] at ht
    · have ht := type_of_mem_markup h
      simp [addedRec] at ht
    · have ht := type_of_mem_formatting h
      simp [addedRec] at ht
  · intro h
    exact Or.inl (Or.inl (Or.inl (Or.inl (addedRec_mem_iff.mpr h))))

theorem removedRec_mem_changesFor {b a v : List Char} :
    removedRec v ∈ changesFor b a ↔
      (v ∈ (analyzeA b).dimensions ∧ v ∉ (analyzeA a).dimensions) := by
  unfold changesFor
  simp only [List.mem_append]
  constructor
  · rintro ((((h | h) | h) | h) | h)
    · have ht := type_of_mem_added h
      simp [removedRec] at ht
    · exact removedRec_mem_iff.mp h
    · have ht := type_of_mem_missing h
      simp [removedRec] at ht
    · have ht := type_of_mem_markup h
      simp [removedRec] at ht
    · have ht := type_of_mem_formatting h
      simp [removedRec] at ht
  · intro h
    exact Or.inl (Or.inl (Or.inl (Or.inr (removedRec_mem_iff.mpr h))))

theorem nodup_added (ba aa : Analysis) : (dimension_added_changes ba aa).Nodup :=
  List.Nodup.map addedRec_injective (List.Nodup.filter _ (List.nodup_dedup _))

theorem nodup_removed (ba aa : Analysis) : (dimension_removed_changes ba aa).Nodup :=
  List.Nodup.map removedRec_injective (List.Nodup.filter _ (List.nodup_dedup _))

theorem changes_of_compare_ne {b a : List Char} (h : b ≠ a) :
    (compare_pdfs_ml b a).changes = changesFor b a := by
  simp [compare_pdfs_ml, h, ComparisonResult.changes]

/-! ### Claim theorems: comparison -/

/-- C3: the dimension diff is a set diff — each value in after's
dimension set but not before's yields exactly one DIMENSION_ADDED
record (severity HIGH, description "New dimension: {value}"), even
if the value occurs several times; each value in before's set but
not after's yields exactly one DIMENSION_REMOVED record (severity
MEDIUM, description "Removed dimension: {value}"). -/
theorem dimension_diff_set_semantics (b a : List Char) (h : b ≠ a) (v : List Char) :
    (v ∈ (analyzeA a).dimensions → v ∉ (analyzeA b).dimensions →
      (compare_pdfs_ml b a).changes.count (addedRec v) = 1) ∧
    (v ∈ (analyzeA b).dimensions → v ∉ (analyzeA a).dimensions →
      (compare_pdfs_ml b a).changes.count (removedRec v) = 1) := by
  rw [changes_of_compare_ne h]
  unfold changesFor
  constructor
  · intro h1 h2
    rw [List.count_append, List.count_append, List.count_append, List.count_append]
    have hA : (dimension_added_changes (analyzeA b) (analyzeA a)).count (addedRec v) = 1 :=
      List.count_eq_one_of_mem (nodup_added _ _) (addedRec_mem_iff.mpr ⟨h1, h2⟩)
    have hR : (dimension_removed_changes (analyzeA b) (analyzeA a)).count (addedRec v) = 0 :=
      List.count_eq_zero.mpr fun hm => by
        have ht := type_of_mem_removed hm
        simp [addedRec] at ht
    have hM : (missing_resolved_changes (analyzeA b) (analyzeA a)).count (addedRec v) = 0 :=
      List.count_eq_zero.mpr fun hm => by
        have ht := type_of_mem_missing hm
        simp [addedRec] at ht
    have hK : (markup_changes b a).count (addedRec v) = 0 :=
      List.count_eq_zero.mpr fun hm => by
        have ht := type_of_mem_markup hm
        simp [addedRec] at ht
    have hF : (formatting_changes b a).count (addedRec v) = 0 :=
      List.count_eq_zero.mpr fun hm => by
        have ht := type_of_mem_formatting hm
        simp [addedRec] at ht
    rw [hA, hR, hM, hK, hF]
  · intro h1 h2
    rw [List.count_append, List.count_append, List.count_append, List.count_append]
    have hR : (dimension_removed_changes (analyzeA b) (analyzeA a)).count (removedRec v) = 1 :=
      List.count_eq_one_of_mem (nodup_removed _ _) (removedRec_mem_iff.mpr ⟨h1, h2⟩)
    have hA : (dimension_added_changes (analyzeA b) (analyzeA a)).count (removedRec v) = 0 :=
      List.count_eq_zero.mpr fun hm => by
        have ht := type_of_mem_added hm
        simp [removedRec] at ht
    have hM : (missing_resolved_changes (analyzeA b) (analyzeA a)).count (removedRec v) = 0 :=
      List.count_eq_zero.mpr fun hm => by
        have ht := type_of_mem_missing hm
        simp [removedRec] at ht
    have hK : (markup_changes b a).count (removedRec v) = 0 :=
      List.count_eq_zero.mpr fun hm => by
        have ht := type_of_mem_markup hm
        simp [removedRec] at ht
    have hF : (formatting_changes b a).count (removedRec v) = 0 :=
      List.count_eq_zero.mpr fun hm => by
        have ht := type_of_mem_formatting hm
        simp [removedRec] at ht
    rw [hA, hR, hM, hK, hF]

theorem dimension_diff_set_semantics_witness :
    strL "1MM" ≠ strL "2MM" ∧
    (strL "2MM" ∈ (analyzeA (strL "2MM")).dimensions ∧
      strL "2MM" ∉ (analyzeA (strL "1MM")).dimensions) ∧
    (strL "1MM" ∈ (analyzeA (strL "1MM")).dimensions ∧
      strL "1MM" ∉ (analyzeA (strL "2MM")).dimensions) ∧
    (compare_pdfs_ml (strL "1MM") (strL "2MM")).changes.count (addedRec (strL "2MM")) = 1 ∧
    (compare_pdfs_ml (strL "1MM") (strL "2MM")).changes.count (removedRec (strL "1MM")) = 1 :=
  ⟨by decide, ⟨by decide, by decide⟩, ⟨by decide, by decide⟩,
    (dimension_diff_set_semantics (strL "1MM") (strL "2MM") (by decide) (strL "2MM")).1
      (by decide) (by decide),
    (dimension_diff_set_semantics (strL "1MM") (strL "2MM") (by decide) (strL "1MM")).2
      (by decide) (by decide)⟩

/-- C4: a non-identical comparison contains exactly one
MISSING_DATA_RESOLVED record (severity GOOD, description
"Resolved {delta} missing dimensions") iff before's missing-data
count strictly exceeds after's; otherwise none appears. -/
theorem missing_data_resolution_rule (b a : List Char) (h : b ≠ a) :
    ((compare_pdfs_ml b a).changes.countP
        (fun r => decide (r.type = ChangeType.MISSING_DATA_RESOLVED))
      = if (analyzeA a).missing_data.length < (analyzeA b).missing_data.length
        then 1 else 0) ∧
    ((analyzeA a).missing_data.length < (analyzeA b).missing_data.length →
      resolvedRec ((analyzeA b).missing_data.length - (analyzeA a).missing_data.length)
        ∈ (compare_pdfs_ml b a).changes) := by
  rw [changes_of_compare_ne h]
  unfold changesFor
  constructor
  · rw [List.countP_append, List.countP_append, List.countP_append, List.countP_append]
    have hA : (dimension_added_changes (analyzeA b) (analyzeA a)).countP
        (fun r => decide (r.type = ChangeType.MISSING_DATA_RESOLVED)) = 0 :=
      List.countP_eq_zero.mpr fun x hx => by simp [type_of_mem_added hx]
    have hR : (dimension_removed_changes (analyzeA b) (analyzeA a)).countP
        (fun r => decide (r.type = ChangeType.MISSING_DATA_RESOLVED)) = 0 :=
      List.countP_eq_zero.mpr fun x hx => by simp [type_of_mem_removed hx]
    have hK : (markup_changes b a).countP
        (fun r => decide (r.type = ChangeType.MISSING_DATA_RESOLVED)) = 0 :=
      List.countP_eq_zero.mpr fun x hx => by simp [type_of_mem_markup hx]
    have hF : (formatting_changes b a).countP
        (fun r => decide (r.type = ChangeType.MISSING_DATA_RESOLVED)) = 0 :=
      List.countP_eq_zero.mpr fun x hx => by simp [type_of_mem_formatting hx]
    have hM : (missing_resolved_changes (analyzeA b) (analyzeA a)).countP
        (fun r => decide (r.type = ChangeType.MISSING_DATA_RESOLVED))
        = if (analyzeA a).missing_data.length < (analyzeA b).missing_data.length
          then 1 else 0 := by
      unfold missing_resolved_changes
      split
      · simp [resolvedRec]
      · simp
    rw [hA, hR, hM, hK, hF]
    simp only [Nat.zero_add, Nat.add_zero]
  · intro hlt
    simp only [List.mem_append]
    refine Or.inl (Or.inl (Or.inr ?_))
    unfold missing_resolved_changes
    rw [if_pos hlt]
    exact List.mem_singleton.mpr rfl

theorem missing_data_resolution_rule_witness :
    strL "a d" ≠ strL "zz" ∧
    (analyzeA (strL "zz")).missing_data.length < (analyzeA (strL "a d")).missing_data.length ∧
    (compare_pdfs_ml (strL "a d") (strL "zz")).changes.countP
        (fun r => decide (r.type = ChangeType.MISSING_DATA_RESOLVED)) = 1 ∧
    resolvedRec 1 ∈ (compare_pdfs_ml (strL "a d") (strL "zz")).changes :=
  ⟨by decide, by decide,
    by
      have := (missing_data_resolution_rule (strL "a d") (strL "zz") (by decide)).1
      simpa using this,
    by
      have := (missing_data_resolution_rule (strL "a d") (strL "zz") (by decide)).2
        (by decide)
      simpa using this⟩

/-- C5: for distinct documents, the quality improvement is
antisymmetric and the dimension change labels swap: the values
reported as DIMENSION_ADDED by `compare a b` are exactly those
reported as DIMENSION_REMOVED by `compare b a`, and vice versa. -/
theorem compare_swap_antisymmetry (a b : List Char) (h : a ≠ b) :
    (compare_pdfs_ml b a).quality_improvement
      = -(compare_pdfs_ml a b).quality_improvement ∧
    (∀ v : List Char, addedRec v ∈ (compare_pdfs_ml a b).changes ↔
        removedRec v ∈ (compare_pdfs_ml b a).changes) ∧
    (∀ v : List Char, removedRec v ∈ (compare_pdfs_ml a b).changes ↔
        addedRec v ∈ (compare_pdfs_ml b a).changes) := by
  have h' : b ≠ a := h.symm
  refine ⟨?_, ?_, ?_⟩
  · simp only [compare_pdfs_ml, if_neg h, if_neg h', ComparisonResult.quality_improvement]
    ring
  · intro v
    rw [changes_of_compare_ne h, changes_of_compare_ne h',
      addedRec_mem_changesFor, removedRec_mem_changesFor]
  · intro v
    rw [changes_of_compare_ne h, changes_of_compare_ne h',
      removedRec_mem_changesFor, addedRec_mem_changesFor]

theorem compare_swap_antisymmetry_witness :
    strL "1MM x" ≠ strL "2MM" ∧
    (compare_pdfs_ml (strL "2MM") (strL "1MM x")).quality_improvement
      = -(compare_pdfs_ml (strL "1MM x") (strL "2MM")).quality_improvement ∧
    (addedRec (strL "2MM") ∈ (compare_pdfs_ml (strL "1MM x") (strL "2MM")).changes ↔
      removedRec (strL "2MM") ∈ (compare_pdfs_ml (strL "2MM") (strL "1MM x")).changes) ∧
    (removedRec (strL "1MM x") ∈ (compare_pdfs_ml (strL "1MM x") (strL "2MM")).changes ↔
      addedRec (strL "1MM x") ∈ (compare_pdfs_ml (strL "2MM") (strL "1MM x")).changes) :=
  ⟨by decide,
    (compare_swap_antisymmetry (strL "1MM x") (strL "2MM") (by decide)).1,
    (compare_swap_antisymmetry (strL "1MM x") (strL "2MM") (by decide)).2.1 (strL "2MM"),
    (compare_swap_antisymmetry (strL "1MM x") (strL "2MM") (by decide)).2.2 (strL "1MM x")⟩

/-- C10: in a non-identical comparison, at most one record each of
type MISSING_DATA_RESOLVED, MARKUP_DETECTED and FORMATTING_CHANGE
appears, and `total_changes` equals the length of the change list. -/
theorem changes_multiplicity_bounds (b a : List Char) (h : b ≠ a) :
    ((compare_pdfs_ml b a).changes.countP
        (fun r => decide (r.type = ChangeType.MISSING_DATA_RESOLVED)) ≤ 1) ∧
    ((compare_pdfs_ml b a).changes.countP
        (fun r => decide (r.type = ChangeType.MARKUP_DETECTED)) ≤ 1) ∧
    ((compare_pdfs_ml b a).changes.countP
        (fun r => decide (r.type = ChangeType.FORMATTING_CHANGE)) ≤ 1) ∧
    (compare_pdfs_ml b a).total_changes = (compare_pdfs_ml b a).changes.length := by
  rw [changes_of_compare_ne h]
  refine ⟨?_, ?_, ?_, ?_⟩
  · unfold changesFor
    rw [List.countP_append, List.countP_append, List.countP_append, List.countP_append]
    have hA : (dimension_added_changes (analyzeA b) (analyzeA a)).countP
        (fun r => decide (r.type = ChangeType.MISSING_DATA_RESOLVED)) = 0 :=
      List.countP_eq_zero.mpr fun x hx => by simp [type_of_mem_added hx]
    have hR : (dimension_removed_changes (analyzeA b) (analyzeA a)).countP
        (fun r => decide (r.type = ChangeType.MISSING_DATA_RESOLVED)) = 0 :=
      List.countP_eq_zero.mpr fun x hx => by simp [type_of_mem_removed hx]
    have hK : (markup_changes b a).countP
        (fun r => decide (r.type = ChangeType.MISSING_DATA_RESOLVED)) = 0 :=
      List.countP_eq_zero.mpr fun x hx => by simp [type_of_mem_markup hx]
    have hF : (formatting_changes b a).countP
        (fun r => decide (r.type = ChangeType.MISSING_DATA_RESOLVED)) = 0 :=
      List.countP_eq_zero.mpr fun x hx => by simp [type_of_mem_formatting hx]
    have hM : (missing_resolved_changes (analyzeA b) (analyzeA a)).countP
        (fun r => decide (r.type = ChangeType.MISSING_DATA_RESOLVED)) ≤ 1 := by
      refine le_trans (List.countP_le_length _) ?_
      unfold missing_resolved_changes
      split <;> simp
    rw [hA, hR, hK, hF]
    simpa using hM
  · unfold changesFor
    rw [List.countP_append, List.countP_append, List.countP_append, List.countP_append]
    have hA : (dimension_added_changes (analyzeA b) (analyzeA a)).countP
        (fun r => decide (r.type = ChangeType.MARKUP_DETECTED)) = 0 :=
      List.countP_eq_zero.mpr fun x hx => by simp [type_of_mem_added hx]
    have hR : (dimension_removed_changes (analyzeA b) (analyzeA a)).countP
        (fun r => decide (r.type = ChangeType.MARKUP_DETECTED)) = 0 :=
      List.countP_eq_zero.mpr fun x hx => by simp [type_of_mem_removed hx]
    have hM : (missing_resolved_changes (analyzeA b) (analyzeA a)).countP
        (fun r => decide (r.type = ChangeType.MARKUP_DETECTED)) = 0 :=
      List.countP_eq_zero.mpr fun x hx => by simp [type_of_mem_missing hx]
    have hF : (formatting_changes b a).countP
        (fun r => decide (r.type = ChangeType.MARKUP_DETECTED)) = 0 :=
      List.countP_eq_zero.mpr fun x hx => by simp [type_of_mem_formatting hx]
    have hK : (markup_changes b a).countP
        (fun r => decide (r.type = ChangeType.MARKUP_DETECTED)) ≤ 1 := by
      refine le_trans (List.countP_le_length _) ?_
      unfold markup_changes
      split <;> simp
    rw [hA, hR, hM, hF]
    simpa using hK
  · unfold changesFor
    rw [List.countP_append, List.countP_append, List.countP_append, List.countP_append]
    have hA : (dimension_added_changes (analyzeA b) (analyzeA a)).countP
        (fun r => decide (r.type = ChangeType.FORMATTING_CHANGE)) = 0 :=
      List.countP_eq_zero.mpr fun x hx => by simp [type_of_mem_added hx]
    have hR : (dimension_removed_changes (analyzeA b) (analyzeA a)).countP
        (fun r => decide (r.type = ChangeType.FORMATTING_CHANGE)) = 0 :=
      List.countP_eq_zero.mpr fun x hx => by simp [type_of_mem_removed hx]
    have hM : (missing_resolved_changes (analyzeA b) (analyzeA a)).countP
        (fun r => decide (r.type = ChangeType.FORMATTING_CHANGE)) = 0 :=
      List.countP_eq_zero.mpr fun x hx => by simp [type_of_mem_missing hx]
    have hK : (markup_changes b a).countP
        (fun r => decide (r.type = ChangeType.FORMATTING_CHANGE)) = 0 :=
      List.countP_eq_zero.mpr fun x hx => by simp [type_of_mem_markup hx]
    have hF : (formatting_changes b a).countP
        (fun r => decide (r.type = ChangeType.FORMATTING_CHANGE)) ≤ 1 := by
      refine le_trans (List.countP_le_length _) ?_
      unfold formatting_changes
      split <;> simp
    rw [hA, hR, hM, hK]
    simpa using hF
  · simp [compare_pdfs_ml, h, ComparisonResult.total_changes, ComparisonResult.changes]

theorem changes_multiplicity_bounds_witness :
    strL "a d Bold 1" ≠ strL "zz Bold 1 2" ∧
    ((compare_pdfs_ml (strL "a d Bold 1") (strL "zz Bold 1 2")).changes.countP
        (fun r => decide (r.type = ChangeType.MISSING_DATA_RESOLVED)) ≤ 1) ∧
    (compare_pdfs_ml (strL "a d Bold 1") (strL "zz Bold 1 2")).total_changes
      = (compare_pdfs_ml (strL "a d Bold 1") (strL "zz Bold 1 2")).changes.length :=
  ⟨by decide,
    (changes_multiplicity_bounds (strL "a d Bold 1") (strL "zz Bold 1 2") (by decide)).1,
    (changes_multiplicity_bounds (strL "a d Bold 1") (strL "zz Bold 1 2")
      (by decide)).2.2.2⟩

/-- C7: for every non-identical comparison the checklist has at least
one item in critical_items, dimensions, annotations and completeness,
and the specifications category is non-empty iff the after document's
specification count exceeds 5, in which case it is one PASS item. -/
theorem checklist_category_population (b a : List Char) (h : b ≠ a) :
    (generate_engineering_checklist (compare_pdfs_ml b a)).critical_items ≠ [] ∧
    (generate_engineering_checklist (compare_pdfs_ml b a)).dimensions ≠ [] ∧
    (generate_engineering_checklist (compare_pdfs_ml b a)).annotations ≠ [] ∧
    (generate_engineering_checklist (compare_pdfs_ml b a)).completeness ≠ [] ∧
    ((generate_engineering_checklist (compare_pdfs_ml b a)).specifications ≠ [] ↔
      5 < (analyzeA a).specifications.length) ∧
    (5 < (analyzeA a).specifications.length →
      ∃ it, (generate_engineering_checklist (compare_pdfs_ml b a)).specifications = [it]
        ∧ it.status = Status.PASS) := by
  have hfull : (compare_pdfs_ml b a).after_analysis = analyzeA a := by
    simp [compare_pdfs_ml, h, ComparisonResult.after_analysis]
  unfold generate_engineering_checklist
  rw [hfull]
  dsimp only
  refine ⟨?_, ?_, ?_, ?_, ?_, ?_⟩
  · split
    · simp only [ne_eq, List.map_eq_nil_iff]
      intro hnil
      simp_all
    · simp
  · split <;> simp
  · split <;> simp
  · split <;> simp
  · constructor
    · intro hne
      by_contra hle
      rw [if_neg (by omega)] at hne
      exact hne rfl
    · intro hgt
      rw [if_pos (by omega)]
      simp
  · intro hgt
    rw [if_pos (by omega)]
    exact ⟨_, rfl, rfl⟩

theorem checklist_category_population_witness :
    strL "q" ≠ strL "GRADE\nGRADE\nGRADE\nGRADE\nGRADE\nGRADE" ∧
    5 < (analyzeA (strL "GRADE\nGRADE\nGRADE\nGRADE\nGRADE\nGRADE")).specifications.length ∧
    (generate_engineering_checklist
        (compare_pdfs_ml (strL "q")
          (strL "GRADE\nGRADE\nGRADE\nGRADE\nGRADE\nGRADE"))).critical_items ≠ [] ∧
    ((generate_engineering_checklist
        (compare_pdfs_ml (strL "q")
          (strL "GRADE\nGRADE\nGRADE\nGRADE\nGRADE\nGRADE"))).specifications ≠ [] ↔
      5 < (analyzeA (strL "GRADE\nGRADE\nGRADE\nGRADE\nGRADE\nGRADE")).specifications.length) :=
  ⟨by decide, by decide,
    (checklist_category_population (strL "q")
      (strL "GRADE\nGRADE\nGRADE\nGRADE\nGRADE\nGRADE") (by decide)).1,
    (checklist_category_population (strL "q")
      (strL "GRADE\nGRADE\nGRADE\nGRADE\nGRADE\nGRADE") (by decide)).2.2.2.2.1⟩

end CSA
